import Mathlib

/-!
Verification of the tunnelled-connection agent (better-https-proxy-agent).

This development is a shallow embedding of the second (later) revision of
`src/index.js`, the revision the claims cite by line number.  JavaScript
objects become Lean structures, the single-threaded event-driven control
flow becomes explicit step functions over state types, and the Node event
loop's deliveries become event lists consumed by `runAgentSteps` /
`runTunnel`.  Machine-level JavaScript truthiness (`0`, `undefined` falsy)
is made explicit at each use site.
-/

namespace BetterHttpsProxy

/-- TLS session tickets are opaque blobs; we model them by their identity. -/
abbrev Ticket := Nat

/--
Shallow embedding of the request-options object that flows through
`createConnection`.  Only the fields the agent itself reads or writes are
modelled; the opaque TLS parameters (ca, cert, key, ...) are irrelevant to
every claim and are represented by the `extra` field so that distinct
caller objects stay distinguishable.
-/
structure OptionsObj where
  host : Option String := none
  hostname : Option String := none
  port : Option Nat := none
  timeout : Option Nat := none
  agentKey : Option String := none
  session : Option Ticket := none
  socket : Option Nat := none
  extra : Nat := 0
deriving Repr, DecidableEq

/-!
## Session cache

`_getSession`, `_cacheSession` and `_evictSession` are inherited from
Node's `https.Agent`; the repository only calls them.  They implement a
per-key map (`map[key] = session` / `delete map[key]`), which we embed as
an association list with last-writer-wins update, matching the
SessionCache contract (get / put / evict) the spec records for them.
-/

/-- Session store: association list from origin key to latest ticket. -/
abbrev Sessions := List (String × Ticket)

/-- `_getSession(key)`: look up the ticket cached for `key`. -/
def getSession (m : Sessions) (k : String) : Option Ticket :=
  (m.find? (fun p => p.1 = k)).map (fun p => p.2)

/-- `_cacheSession(key, session)`: overwrite the entry for `key`. -/
def cacheSession (m : Sessions) (k : String) (t : Ticket) : Sessions :=
  (k, t) :: m.filter (fun p => p.1 ≠ k)

/--
`_evictSession(key)`: drop the entry for `key`.  The close handler calls it
with `options._agentKey`, which may be `undefined`; an `undefined` key can
never have been cached (`_cacheSession` is guarded by `options._agentKey`),
so we model the `none` case as a no-op.
-/
def evictSession (m : Sessions) (k : Option String) : Sessions :=
  match k with
  | none => m
  | some k => m.filter (fun p => p.1 ≠ k)

/-- `options.session = session` happens only when `_agentKey` is set, no
session was pre-supplied and the cache has a ticket
(`_augmentOptionsWithSession`, index.js lines 329-340). -/
def augmentOptionsWithSession (m : Sessions) (o : OptionsObj) : OptionsObj :=
  match o.agentKey with
  | none => o
  | some k =>
    if o.session.isSome then o
    else
      match getSession m k with
      | none => o
      | some s => { o with session := some s }

/-!
## Admission / queue controller

State of one `Agent` instance: `maxSockets` is
`this[_betterHttpsProxyOptions].maxSockets` (0 models the JavaScript falsy
"unset"), `active` is `this[_betterHttpsProxyActiveSockets]`, `waiting` is
`this[_betterHttpsProxyWaitingRequests]`.  `pendingConnect` counts admitted
requests whose CONNECT exchange has not yet resolved, and `live` counts
TLS sockets that exist and have not yet emitted `close`; both exist only to
say which environment events (CONNECT resolution, TLS close) are possible,
they are not variables of the JavaScript program.

`active : Int` so that a decrement below zero would be visible rather than
truncated away.
-/
structure AgentState where
  maxSockets : Nat
  active : Int
  waiting : List OptionsObj
  sessions : Sessions
  pendingConnect : Nat
  live : Nat
deriving Repr, DecidableEq

/--
`createConnection(options)` (index.js lines 266-327), synchronous part.
The caller's object is shallow-copied first (value semantics here; the
heap-level model is below).  If `maxSockets` is truthy and equal to
`active` the copy is pushed onto the FIFO and nothing is returned;
otherwise `active` is incremented, the copy is augmented with a cached
session and the CONNECT request is launched (`pendingConnect + 1`).
Returns the launched request's options, or `none` when queued.
-/
def createConnection (s : AgentState) (options : OptionsObj) :
    AgentState × Option OptionsObj :=
  if s.maxSockets ≠ 0 ∧ s.active = (s.maxSockets : Int) then
    ({ s with waiting := s.waiting ++ [options] }, none)
  else
    let options := augmentOptionsWithSession s.sessions options
    ({ s with active := s.active + 1, pendingConnect := s.pendingConnect + 1 },
     some options)

/--
The `tlsSocket.once('close', ...)` handler body (index.js lines 307-319):
evict the session when `hadError`, decrement `active`, shift one waiting
request and restart it through `createConnection`.  Returns the request
that was shifted, if any.
-/
def closeHandler (s : AgentState) (hadError : Bool) (key : Option String) :
    AgentState × Option OptionsObj :=
  let s := { s with
    sessions := if hadError then evictSession s.sessions key else s.sessions,
    active := s.active - 1 }
  match s.waiting with
  | [] => (s, none)
  | w :: rest => ((createConnection { s with waiting := rest } w).1, some w)

/-- Environment events driving one agent instance. -/
inductive AgentEvent where
  | request (options : OptionsObj)
  | connectFail
  | connectOk
  | tlsClose (hadError : Bool) (key : Option String)
deriving Repr, DecidableEq

/--
One event-loop delivery.  `connectFail` is the CONNECT-failure callback
(index.js lines 288-293): the stream emits `error` and nothing else happens
to the agent's bookkeeping.  `connectOk` resolves a CONNECT with a socket:
`tls.connect` is called and the close handler becomes registered (`live`).
`tlsClose` is a `close` emitted by a live TLS socket.  Events that no
outstanding request can produce yield `none`.
-/
def agentStep (s : AgentState) : AgentEvent → Option AgentState
  | .request options => some (createConnection s options).1
  | .connectFail =>
    if s.pendingConnect = 0 then none
    else some { s with pendingConnect := s.pendingConnect - 1 }
  | .connectOk =>
    if s.pendingConnect = 0 then none
    else some { s with pendingConnect := s.pendingConnect - 1, live := s.live + 1 }
  | .tlsClose hadError key =>
    if s.live = 0 then none
    else some (closeHandler { s with live := s.live - 1 } hadError key).1

/-- Run a list of events from a state. -/
def runAgentSteps (s : AgentState) : List AgentEvent → Option AgentState
  | [] => some s
  | e :: es =>
    match agentStep s e with
    | none => none
    | some s' => runAgentSteps s' es

/-- A fresh agent with cap `m` (`0` = cap unset). -/
def initAgent (m : Nat) : AgentState :=
  { maxSockets := m, active := 0, waiting := [], sessions := [],
    pendingConnect := 0, live := 0 }

/-- Run a trace against a fresh agent. -/
def runAgent (m : Nat) (es : List AgentEvent) : Option AgentState :=
  runAgentSteps (initAgent m) es

/-!
### Counting invariant
-/

/-- Inductive invariant of the admission controller: `active` covers every
outstanding CONNECT and every live socket, and respects the cap. -/
def AgentInv (s : AgentState) : Prop :=
  ((s.pendingConnect : Int) + (s.live : Int) ≤ s.active) ∧
  (s.maxSockets ≠ 0 → s.active ≤ (s.maxSockets : Int))

/-!
## ProxyConnector: CONNECT response interpretation
-/

/-- The response head the proxy sends for the CONNECT request. -/
structure ConnectResponse where
  statusCode : Nat
  statusMessage : String
deriving Repr, DecidableEq

/-- What the `connect`-event handler passes to its callback. -/
inductive ConnectResult where
  | okSocket
  | errResult (message : String) (code : Nat)
deriving Repr, DecidableEq

/--
The `request.on('connect', ...)` handler (index.js lines 445-459): on
status 200 the raw tunnel socket is yielded; on any other status the
callback receives `new Error(res.statusMessage)` with
`error.code = res.statusCode`, and the socket is destroyed.  The second
component records whether the socket was destroyed.
-/
def onConnectResponse (res : ConnectResponse) : ConnectResult × Bool :=
  if res.statusCode = 200 then (ConnectResult.okSocket, false)
  else (ConnectResult.errResult res.statusMessage res.statusCode, true)

/-!
## Timeout-listener bookkeeping

Listeners for the surrogate's `timeout` event.  Callbacks are opaque;
`once` records registration through `once` (one-shot) as opposed to `on`.
-/

/-- Opaque callback identity. -/
abbrev CB := Nat

/-- One registered `timeout` listener. -/
structure ListenerEntry where
  cb : CB
  once : Bool
deriving Repr, DecidableEq

/-- `this.once('timeout', c)`: Node appends to the listener array. -/
def onceTimeout (ls : List ListenerEntry) (c : CB) : List ListenerEntry :=
  ls ++ [⟨c, true⟩]

/-- `this.removeListener('timeout', c)`: Node removes the last-added
matching listener (its emitter scans the array backwards). -/
def removeTimeoutListener : List ListenerEntry → CB → List ListenerEntry
  | [], _ => []
  | e :: es, c =>
    if es.any (fun x => x.cb = c) then e :: removeTimeoutListener es c
    else if e.cb = c then es
    else e :: es

/--
`setTimeoutListener(timeout, callback)` (index.js lines 511-523), the
helper shared by the pending and connected `setTimeout` variants: a truthy
timeout with a callback registers it one-shot; a zero timeout with a
callback removes that listener; a zero timeout without a callback removes
all `timeout` listeners.
-/
def setTimeoutListener (ls : List ListenerEntry) (timeout : Nat)
    (callback : Option CB) : List ListenerEntry :=
  if timeout ≠ 0 then
    match callback with
    | some c => onceTimeout ls c
    | none => ls
  else
    match callback with
    | some c => removeTimeoutListener ls c
    | none => []

/-- Emitting `timeout`: every listener fires (in order); one-shot listeners
are removed, persistent ones survive. -/
def emitTimeout (ls : List ListenerEntry) : List CB × List ListenerEntry :=
  (ls.map (fun e => e.cb), ls.filter (fun e => !e.once))

/-- Occurrences of callback `c` among the listeners. -/
def countCb (ls : List ListenerEntry) (c : CB) : Nat :=
  ls.countP (fun e => e.cb = c)

/-!
## SurrogateStream buffered configuration

While the surrogate is pending, `setTimeout` / `setKeepAlive` / `ref` /
`unref` record their effect into per-field slots; the recorded values are
replayed onto the TLS stream at the moment `_connectSurrogateStream` runs.
-/

/-- The first argument of `setKeepAlive` as JavaScript sees it: a boolean,
a number, or `undefined`. -/
inductive KAArg where
  | kbool (b : Bool)
  | knum (n : Nat)
  | kundef
deriving Repr, DecidableEq

/-- The buffered-configuration slots of a pending surrogate
(index.js lines 350-354). -/
structure SurrogateConfig where
  surrogateTimeout : Option Nat := none
  surrogateKeepAliveEnable : Option Bool := none
  surrogateKeepAliveDelay : Option Nat := none
  surrogateReffed : Bool := true
deriving Repr, DecidableEq

/-- A pending surrogate: buffered config plus its `timeout` listeners. -/
structure PendingStream where
  config : SurrogateConfig := {}
  listeners : List ListenerEntry := []
deriving Repr, DecidableEq

/-- A configuration-mutator call as made by the HTTPS client. -/
inductive PendingCall where
  | setTimeoutCall (timeout : Nat) (callback : Option CB)
  | setKeepAliveCall (enable : KAArg) (initialDelay : Option Nat)
  | refCall
  | unrefCall
deriving Repr, DecidableEq

/--
`surrogateSetKeepAlive(enable, initialDelay)` (index.js lines 481-491):
a boolean first argument records the enable flag, otherwise the first
argument *becomes* `initialDelay` (discarding the second); a truthy
resulting delay is recorded.
-/
def surrogateSetKeepAlive (c : SurrogateConfig) (enable : KAArg)
    (initialDelay : Option Nat) : SurrogateConfig :=
  let step : SurrogateConfig × Option Nat :=
    match enable with
    | .kbool b => ({ c with surrogateKeepAliveEnable := some b }, initialDelay)
    | .knum n => (c, some n)
    | .kundef => (c, none)
  match step.2 with
  | some d =>
    if d ≠ 0 then { step.1 with surrogateKeepAliveDelay := some d } else step.1
  | none => step.1

/-- `surrogateSetTimeout(timeout, callback)` (index.js lines 473-479):
record the timeout and maintain the `timeout` listeners via the shared
helper. -/
def surrogateSetTimeout (s : PendingStream) (timeout : Nat)
    (callback : Option CB) : PendingStream :=
  { config := { s.config with surrogateTimeout := some timeout },
    listeners := setTimeoutListener s.listeners timeout callback }

/-- `surrogateRef()` (index.js lines 493-497). -/
def surrogateRef (c : SurrogateConfig) : SurrogateConfig :=
  { c with surrogateReffed := true }

/-- `surrogateUnref()` (index.js lines 499-503). -/
def surrogateUnref (c : SurrogateConfig) : SurrogateConfig :=
  { c with surrogateReffed := false }

/-- Dispatch one pending-phase configuration call. -/
def applyPendingCall (s : PendingStream) : PendingCall → PendingStream
  | .setTimeoutCall t cb => surrogateSetTimeout s t cb
  | .setKeepAliveCall e d => { s with config := surrogateSetKeepAlive s.config e d }
  | .refCall => { s with config := surrogateRef s.config }
  | .unrefCall => { s with config := surrogateUnref s.config }

/-- A sequence of pending-phase calls, in the order the caller made them. -/
def applyPendingCalls (s : PendingStream) (cs : List PendingCall) : PendingStream :=
  cs.foldl applyPendingCall s

/-- A method invocation observed on the underlying TLS stream. -/
inductive TlsCall where
  | tlsSetTimeout (timeout : Nat)
  | tlsSetKeepAliveEnable (enable : Bool)
  | tlsSetKeepAliveDelay (delay : Nat)
  | tlsSetKeepAliveBoth (enable : KAArg) (initialDelay : Option Nat)
  | tlsRef
  | tlsUnref
deriving Repr, DecidableEq

/--
The buffered side effects applied by `_connectSurrogateStream`
(index.js lines 390-401), in the source's fixed order: timeout, then
keep-alive enable, then keep-alive delay, then unref.
-/
def flushBuffered (c : SurrogateConfig) : List TlsCall :=
  (match c.surrogateTimeout with
   | some t => [TlsCall.tlsSetTimeout t]
   | none => []) ++
  (match c.surrogateKeepAliveEnable with
   | some b => [TlsCall.tlsSetKeepAliveEnable b]
   | none => []) ++
  (match c.surrogateKeepAliveDelay with
   | some d => [TlsCall.tlsSetKeepAliveDelay d]
   | none => []) ++
  (if c.surrogateReffed then [] else [TlsCall.tlsUnref])

/-- The TLS calls a configuration call performs immediately once the
surrogate is connected (`connectedSetTimeout` / `connectedSetKeepAlive` /
`connectedRef` / `connectedUnref`, index.js lines 525-555). -/
def connectedForward : PendingCall → List TlsCall
  | .setTimeoutCall t _ => [TlsCall.tlsSetTimeout t]
  | .setKeepAliveCall e d => [TlsCall.tlsSetKeepAliveBoth e d]
  | .refCall => [TlsCall.tlsRef]
  | .unrefCall => [TlsCall.tlsUnref]

/-- TLS calls made by a sequence of connected-phase configuration calls. -/
def connectedApplyCalls (cs : List PendingCall) : List TlsCall :=
  cs.foldl (fun acc c => acc ++ connectedForward c) []

/-- The timeout value a pending call records, if any. -/
def timeoutOfCall : PendingCall → Option Nat
  | .setTimeoutCall t _ => some t
  | _ => none

/-- The keep-alive enable flag a pending call records, if any. -/
def enableOfCall : PendingCall → Option Bool
  | .setKeepAliveCall (.kbool b) _ => some b
  | _ => none

/-- The keep-alive delay a pending call records, if any. -/
def delayOfCall : PendingCall → Option Nat
  | .setKeepAliveCall (.kbool _) (some d) => if d ≠ 0 then some d else none
  | .setKeepAliveCall (.knum n) _ => if n ≠ 0 then some n else none
  | _ => none

/-- The referenced flag a pending call records, if any. -/
def refOfCall : PendingCall → Option Bool
  | .refCall => some true
  | .unrefCall => some false
  | _ => none

/-- The last value of a recorded slot over a call sequence (later calls
win). -/
def lastSet {α : Type} (f : PendingCall → Option α) : List PendingCall → Option α
  | [] => none
  | c :: cs =>
    match lastSet f cs with
    | some x => some x
    | none => f c

/--
Rendering of the specification's words for comparison with
`flushBuffered`: buffered configuration "applied to the TLS stream at the
moment of the transition in the order the calls were made", i.e. each
recorded call contributes its transition-time TLS calls in call order.
-/
def flushBufferedSpecCallOrder (cs : List PendingCall) : List TlsCall :=
  cs.foldl (fun acc c => acc ++ flushEffectOfCall c) []
where
  /-- The transition-time TLS calls attributable to one recorded call. -/
  flushEffectOfCall : PendingCall → List TlsCall
  | .setTimeoutCall t _ => [TlsCall.tlsSetTimeout t]
  | .setKeepAliveCall (.kbool b) d =>
    [TlsCall.tlsSetKeepAliveEnable b] ++
      (match d with
       | some n => if n ≠ 0 then [TlsCall.tlsSetKeepAliveDelay n] else []
       | none => [])
  | .setKeepAliveCall (.knum n) _ =>
    if n ≠ 0 then [TlsCall.tlsSetKeepAliveDelay n] else []
  | .setKeepAliveCall .kundef _ => []
  | .refCall => []
  | .unrefCall => [TlsCall.tlsUnref]

/-!
## Per-request tunnel lifecycle

The life of one admitted tunnel request, from the launch of its CONNECT
exchange.  The boolean `...Armed` fields record which `once` listeners are
still registered; `connectPending` says the CONNECT callback has not yet
run; `tlsStarted` / `closedFlag` say whether the TLS socket exists /
has emitted `close`.
-/

/-- Events the surrogate re-emits downstream that terminate a request. -/
inductive Emission where
  | errorE (msg : String)
  | closeE
deriving Repr, DecidableEq

/-- State of one tunnel request after admission. -/
structure TunnelState where
  agentKey : Option String
  connectPending : Bool
  tlsStarted : Bool
  closedFlag : Bool
  connectedStream : Option Unit
  methodsConnected : Bool
  writable : Bool
  secureArmed : Bool
  errorArmedConnected : Bool
  errorArmedGuard : Bool
  closeArmedConnected : Bool
  closeArmedAgent : Bool
  sessions : Sessions
  emitted : List Emission
deriving Repr, DecidableEq

/-- A freshly admitted request: surrogate created
(`_createSurrogateStream`, index.js lines 342-374), CONNECT launched. -/
def tunnelInit (key : Option String) (sessions : Sessions) : TunnelState :=
  { agentKey := key, connectPending := true, tlsStarted := false,
    closedFlag := false, connectedStream := none, methodsConnected := false,
    writable := true, secureArmed := false, errorArmedConnected := false,
    errorArmedGuard := false, closeArmedConnected := false,
    closeArmedAgent := false, sessions := sessions, emitted := [] }

/-- Environment events for one tunnel request. -/
inductive TunnelEvent where
  | connectFailed (msg : String)
  | connectSucceeded
  | secureEvent (ticket : Ticket)
  | tlsError (msg : String)
  | tlsCloseEvent (hadError : Bool)
deriving Repr, DecidableEq

/--
One event-loop delivery for a tunnel request, translated from
index.js lines 288-320 and `_connectSurrogateStream` (lines 376-431):

* CONNECT failure: the callback emits `error` on the surrogate and
  returns (lines 288-293).
* CONNECT success: `tls.connect` is called, and `_connectSurrogateStream`
  runs *synchronously* right after it (line 301): the TLS handle is
  attached, the method set is swapped to the connected variants, and the
  connected `error` / `close` forwarders (lines 429-430) plus the
  outer `error` guard and `close` handlers (lines 303, 307) are armed.
  The `tls.connect` secure-callback (lines 297-299) is armed but has not
  fired.
* `secure`: the handshake-completion callback caches the negotiated
  ticket when `_agentKey` is set.
* TLS `error`: `connectedOnError` (registered first) re-emits the error if
  still armed; the outer guard handler then re-emits only if the surrogate
  has no attached stream.  Both are `once` listeners.
* TLS `close`: `connectedOnClose` clears writability and re-emits `close`
  if armed; the agent's close handler evicts the session on `hadError`
  (its `active--` / FIFO bookkeeping lives in `agentStep`).
-/
def tunnelStep (s : TunnelState) : TunnelEvent → Option TunnelState
  | .connectFailed msg =>
    if s.connectPending then
      some { s with connectPending := false,
                    emitted := s.emitted ++ [Emission.errorE msg] }
    else none
  | .connectSucceeded =>
    if s.connectPending then
      some { s with connectPending := false, tlsStarted := true,
                    connectedStream := some (), methodsConnected := true,
                    secureArmed := true, errorArmedConnected := true,
                    closeArmedConnected := true, errorArmedGuard := true,
                    closeArmedAgent := true }
    else none
  | .secureEvent tk =>
    if s.tlsStarted ∧ s.secureArmed then
      some { s with secureArmed := false,
                    sessions :=
                      match s.agentKey with
                      | some k => cacheSession s.sessions k tk
                      | none => s.sessions }
    else none
  | .tlsError msg =>
    if s.tlsStarted ∧ ¬s.closedFlag then
      some { s with errorArmedConnected := false, errorArmedGuard := false,
                    emitted := s.emitted ++
                      (if s.errorArmedConnected then [Emission.errorE msg] else []) ++
                      (if s.errorArmedGuard ∧ s.connectedStream = none
                       then [Emission.errorE msg] else []) }
    else none
  | .tlsCloseEvent hadError =>
    if s.tlsStarted ∧ ¬s.closedFlag then
      some { s with closedFlag := true, closeArmedConnected := false,
                    closeArmedAgent := false,
                    writable := if s.closeArmedConnected then false else s.writable,
                    emitted := s.emitted ++
                      (if s.closeArmedConnected then [Emission.closeE] else []),
                    sessions :=
                      if s.closeArmedAgent ∧ hadError
                      then evictSession s.sessions s.agentKey
                      else s.sessions }
    else none

/-- Run a list of tunnel events. -/
def runTunnel (s : TunnelState) : List TunnelEvent → Option TunnelState
  | [] => some s
  | e :: es =>
    match tunnelStep s e with
    | none => none
    | some s' => runTunnel s' es

/-- Number of `error` emissions. -/
def errCount (l : List Emission) : Nat :=
  l.countP (fun e => match e with | .errorE _ => true | _ => false)

/-- Number of `close` emissions. -/
def closeCount (l : List Emission) : Nat :=
  l.countP (fun e => match e with | .closeE => true | _ => false)

/-- Inductive invariant bounding the surrogate's terminal emissions. -/
def TunnelInv (s : TunnelState) : Prop :=
  errCount s.emitted + (if s.connectPending then 1 else 0) +
      (if s.errorArmedConnected then 1 else 0) ≤ 1 ∧
  closeCount s.emitted + (if s.connectPending then 1 else 0) +
      (if s.closeArmedConnected then 1 else 0) ≤ 1 ∧
  (s.errorArmedGuard = true → s.connectedStream.isSome)

/-!
## Heap-level view of `createConnection` option objects

JavaScript objects are aliased references; the claims about
non-mutation of the caller's options need an explicit store.  References
are allocation order, `Heap.next` the next fresh one.
-/

/-- An object reference. -/
abbrev Ref := Nat

/-- A store of option objects. -/
structure Heap where
  objs : List (Ref × OptionsObj)
  next : Ref
deriving Repr, DecidableEq

/-- Dereference. -/
def Heap.read (h : Heap) (r : Ref) : Option OptionsObj :=
  (h.objs.find? (fun p => p.1 = r)).map (fun p => p.2)

/-- In-place field mutation of the object at `r`. -/
def Heap.write (h : Heap) (r : Ref) (o : OptionsObj) : Heap :=
  { h with objs := h.objs.map (fun p => if p.1 = r then (r, o) else p) }

/-- `Object.assign({}, o)`: allocate a fresh object. -/
def Heap.alloc (h : Heap) (o : OptionsObj) : Heap × Ref :=
  ({ objs := (h.next, o) :: h.objs, next := h.next + 1 }, h.next)

/-- Every allocated reference is below `next`. -/
def Heap.WF (h : Heap) : Prop := ∀ p ∈ h.objs, p.1 < h.next

/-- `_augmentOptionsWithSession` as a heap mutation (`options.session =
session` mutates the object `options` points at). -/
def augmentHeapOptions (m : Sessions) (h : Heap) (r : Ref) : Heap :=
  match h.read r with
  | none => h
  | some o => h.write r (augmentOptionsWithSession m o)

/-- The mutations the admitted path performs on the copied options object:
session augmentation (`_augmentOptionsWithSession`, line 282) and socket
attachment in the CONNECT-success callback (`options.socket = socket`,
line 295). -/
def admittedMutations (m : Sessions) (sock : Nat) (h : Heap) (r : Ref) : Heap :=
  let h2 := augmentHeapOptions m h r
  match h2.read r with
  | none => h2
  | some o => h2.write r { o with socket := some sock }

/--
The object-level flow of `createConnection(options)` (index.js lines
266-295): the local variable `options` is rebound to a shallow copy of the
caller's object (line 267) before any mutation; the copy is either pushed
onto the FIFO, or augmented with a session and — in the CONNECT-success
callback — given `options.socket = socket`.  Returns the heap, the FIFO
of references, and the reference the CONNECT path uses.
-/
def createConnectionHeap (m : Sessions) (maxSockets : Nat) (active : Int)
    (waitingRefs : List Ref) (h : Heap) (callerRef : Ref) (sock : Nat) :
    Heap × List Ref × Option Ref :=
  let allocRes := h.alloc ((h.read callerRef).getD {})
  if maxSockets ≠ 0 ∧ active = (maxSockets : Int) then
    (allocRes.1, waitingRefs ++ [allocRes.2], none)
  else
    (admittedMutations m sock allocRes.1 allocRes.2, waitingRefs, some allocRes.2)

/-- When the cap is hit, `createConnection` appends to the FIFO and touches
nothing else. -/
theorem createConnection_queued (s : AgentState) (o : OptionsObj)
    (hg : s.maxSockets ≠ 0 ∧ s.active = (s.maxSockets : Int)) :
    createConnection s o = ({ s with waiting := s.waiting ++ [o] }, none) := by
  unfold createConnection
  rw [if_pos hg]

/-- Below the cap, `createConnection` admits: `active` and `pendingConnect`
are incremented and the augmented options are handed to the CONNECT leg. -/
theorem createConnection_admitted (s : AgentState) (o : OptionsObj)
    (hg : ¬(s.maxSockets ≠ 0 ∧ s.active = (s.maxSockets : Int))) :
    createConnection s o =
      ({ s with active := s.active + 1, pendingConnect := s.pendingConnect + 1 },
       some (augmentOptionsWithSession s.sessions o)) := by
  unfold createConnection
  rw [if_neg hg]

theorem createConnection_inv (s : AgentState) (o : OptionsObj)
    (h : AgentInv s) : AgentInv (createConnection s o).1 := by
  rcases h with ⟨h1, h2⟩
  by_cases hc : s.maxSockets ≠ 0 ∧ s.active = (s.maxSockets : Int)
  · rw [createConnection_queued s o hc]
    exact ⟨h1, h2⟩
  · rw [createConnection_admitted s o hc]
    refine ⟨by simp; omega, ?_⟩
    intro hm
    simp only [AgentState.active] at hm ⊢
    have hne : s.active ≠ (s.maxSockets : Int) := fun he => hc ⟨hm, he⟩
    have hb := h2 hm
    omega

theorem createConnection_max (s : AgentState) (o : OptionsObj) :
    (createConnection s o).1.maxSockets = s.maxSockets := by
  by_cases hc : s.maxSockets ≠ 0 ∧ s.active = (s.maxSockets : Int)
  · rw [createConnection_queued s o hc]
  · rw [createConnection_admitted s o hc]

theorem closeHandler_max (s : AgentState) (hadError : Bool) (key : Option String) :
    (closeHandler s hadError key).1.maxSockets = s.maxSockets := by
  unfold closeHandler
  rcases hw : s.waiting with _ | ⟨w, rest⟩ <;> simp only [hw]
  rw [createConnection_max]

theorem agentStep_max (s : AgentState) (e : AgentEvent) (s' : AgentState)
    (h : agentStep s e = some s') : s'.maxSockets = s.maxSockets := by
  cases e with
  | request o =>
    simp only [agentStep] at h
    cases h
    exact createConnection_max s o
  | connectFail =>
    simp only [agentStep] at h
    by_cases hp : s.pendingConnect = 0
    · simp [hp] at h
    · simp only [hp, if_neg, if_false, Option.some.injEq] at h
      rw [← h]
  | connectOk =>
    simp only [agentStep] at h
    by_cases hp : s.pendingConnect = 0
    · simp [hp] at h
    · simp only [hp, if_neg, if_false, Option.some.injEq] at h
      rw [← h]
  | tlsClose hadError key =>
    simp only [agentStep] at h
    by_cases hl : s.live = 0
    · simp [hl] at h
    · simp only [hl, if_neg, if_false, Option.some.injEq] at h
      rw [← h]
      exact closeHandler_max _ hadError key

theorem closeHandler_inv (s : AgentState) (hadError : Bool) (key : Option String)
    (h1 : (s.pendingConnect : Int) + (s.live : Int) + 1 ≤ s.active)
    (h2 : s.maxSockets ≠ 0 → s.active ≤ (s.maxSockets : Int)) :
    AgentInv (closeHandler s hadError key).1 := by
  unfold closeHandler
  rcases hw : s.waiting with _ | ⟨w, rest⟩ <;> simp only [hw]
  · exact ⟨by simp; omega, fun hm => by simpa using by have := h2 (by simpa using hm); omega⟩
  · apply createConnection_inv
    refine ⟨by simp; omega, fun hm => ?_⟩
    simp only [AgentState.maxSockets] at hm
    have := h2 hm
    simp only [AgentState.active, AgentState.maxSockets]
    omega

theorem agentStep_inv (s : AgentState) (e : AgentEvent) (s' : AgentState)
    (hstep : agentStep s e = some s') (h : AgentInv s) : AgentInv s' := by
  rcases h with ⟨h1, h2⟩
  cases e with
  | request o =>
    simp only [agentStep] at hstep
    cases hstep
    exact createConnection_inv s o ⟨h1, h2⟩
  | connectFail =>
    simp only [agentStep] at hstep
    by_cases hp : s.pendingConnect = 0
    · simp [hp] at hstep
    · simp only [hp, if_neg, if_false, Option.some.injEq] at hstep
      rw [← hstep]
      exact ⟨by simp; omega, by simpa using h2⟩
  | connectOk =>
    simp only [agentStep] at hstep
    by_cases hp : s.pendingConnect = 0
    · simp [hp] at hstep
    · simp only [hp, if_neg, if_false, Option.some.injEq] at hstep
      rw [← hstep]
      exact ⟨by simp; omega, by simpa using h2⟩
  | tlsClose hadError key =>
    simp only [agentStep] at hstep
    by_cases hl : s.live = 0
    · simp [hl] at hstep
    · simp only [hl, if_neg, if_false, Option.some.injEq] at hstep
      rw [← hstep]
      apply closeHandler_inv
      · simp
        omega
      · simpa using h2

theorem runAgentSteps_inv (es : List AgentEvent) (s s' : AgentState)
    (hrun : runAgentSteps s es = some s') (h : AgentInv s) :
    AgentInv s' ∧ s'.maxSockets = s.maxSockets := by
  induction es generalizing s with
  | nil =>
    simp [runAgentSteps] at hrun
    rw [← hrun]
    exact ⟨h, rfl⟩
  | cons e es ih =>
    simp only [runAgentSteps] at hrun
    rcases hstep : agentStep s e with _ | s1
    · rw [hstep] at hrun; simp at hrun
    · rw [hstep] at hrun
      simp only at hrun
      have h1 := agentStep_inv s e s1 hstep h
      have hm := agentStep_max s e s1 hstep
      rcases ih s1 hrun h1 with ⟨ha, hb⟩
      exact ⟨ha, hb.trans hm⟩

/-!
## Session-cache lemmas
-/

theorem getSession_cacheSession (m : Sessions) (k : String) (t : Ticket) :
    getSession (cacheSession m k t) k = some t := by
  simp [getSession, cacheSession]

theorem getSession_evictSession (m : Sessions) (k : String) :
    getSession (evictSession m (some k)) k = none := by
  unfold getSession evictSession
  induction m with
  | nil => simp
  | cons p rest ih =>
    by_cases hp : p.1 = k
    · simpa [List.filter_cons, hp] using ih
    · simpa [List.filter_cons, List.find?_cons, hp] using ih

theorem augmentOptionsWithSession_miss (m : Sessions) (o : OptionsObj) (k : String)
    (hk : o.agentKey = some k) (hget : getSession m k = none) :
    augmentOptionsWithSession m o = o := by
  unfold augmentOptionsWithSession
  rw [hk]
  by_cases hs : o.session.isSome
  · simp [hs]
  · simp [hs, hget]

theorem createConnection_sessions (s : AgentState) (o : OptionsObj) :
    (createConnection s o).1.sessions = s.sessions := by
  by_cases hc : s.maxSockets ≠ 0 ∧ s.active = (s.maxSockets : Int)
  · rw [createConnection_queued s o hc]
  · rw [createConnection_admitted s o hc]

theorem closeHandler_sessions (s : AgentState) (hadError : Bool) (key : Option String) :
    (closeHandler s hadError key).1.sessions =
      if hadError then evictSession s.sessions key else s.sessions := by
  unfold closeHandler
  rcases hw : s.waiting with _ | ⟨w, rest⟩ <;> simp only [hw]
  rw [createConnection_sessions]

/-!
## Claim theorems: admission controller
-/

/--
Claim C2: for all sequences of `createConnection` admissions and tunnel
close events, `0 ≤ active`, and `active ≤ maxTunnels` whenever the cap is
set; a request arriving while `active = maxTunnels` is appended to the
FIFO with `active` unchanged and no connection launched.
-/
theorem activeCountBounds (m : Nat) (es : List AgentEvent) (s' : AgentState)
    (hrun : runAgent m es = some s') :
    (0 ≤ s'.active ∧ (m ≠ 0 → s'.active ≤ (m : Int))) ∧
    (∀ o : OptionsObj, s'.maxSockets ≠ 0 → s'.active = (s'.maxSockets : Int) →
      createConnection s' o = ({ s' with waiting := s'.waiting ++ [o] }, none)) := by
  have hinit : AgentInv (initAgent m) := by
    constructor
    · simp [initAgent]
    · intro _
      simp [initAgent]
  have hinv := runAgentSteps_inv es (initAgent m) s' hrun hinit
  rcases hinv with ⟨⟨h1, h2⟩, hmax⟩
  have hmax' : s'.maxSockets = m := by simpa [initAgent] using hmax
  refine ⟨⟨?_, ?_⟩, ?_⟩
  · omega
  · intro hm0
    have := h2 (by rw [hmax']; exact hm0)
    rw [hmax'] at this
    exact this
  · intro o hm0 ha
    exact createConnection_queued s' o ⟨hm0, ha⟩

/-- Concrete check of `activeCountBounds`: cap 1, one admitted request,
one queued request. -/
theorem activeCountBounds_check :
    0 ≤ ({ maxSockets := 1, active := 1, waiting := [{ extra := 2 }], sessions := [],
           pendingConnect := 1, live := 0 } : AgentState).active ∧
    ((1 : Nat) ≠ 0 →
      ({ maxSockets := 1, active := 1, waiting := [{ extra := 2 }], sessions := [],
         pendingConnect := 1, live := 0 } : AgentState).active ≤ ((1 : Nat) : Int)) :=
  (activeCountBounds 1 [AgentEvent.request {}, AgentEvent.request { extra := 2 }]
    { maxSockets := 1, active := 1, waiting := [{ extra := 2 }], sessions := [],
      pendingConnect := 1, live := 0 } (by decide)).1

/--
Claim C1 (against the code): after an admitted request's CONNECT exchange
fails, the surrogate has emitted `error` but `active` is still 1: the
decrementing close handler is registered on the TLS socket, which is never
created on this path, so no event can ever release the slot, and a queued
request stays queued.
-/
theorem connectFailureLeavesActiveCount :
    (runAgent 1 [AgentEvent.request {}, AgentEvent.connectFail]).map
        (fun s => (s.active, s.pendingConnect, s.live, s.waiting)) =
      some (1, 0, 0, []) ∧
    agentStep { maxSockets := 1, active := 1, waiting := [], sessions := [],
                pendingConnect := 0, live := 0 } (AgentEvent.tlsClose true none) = none ∧
    (runAgent 1 [AgentEvent.request {}, AgentEvent.connectFail,
                 AgentEvent.request { extra := 2 }]).map
        (fun s => (s.active, s.waiting)) = some (1, [{ extra := 2 }]) ∧
    (runTunnel (tunnelInit none []) [TunnelEvent.connectFailed "socket hang up"]).map
        TunnelState.emitted = some [Emission.errorE "socket hang up"] :=
  ⟨by decide, by decide, by decide, by decide⟩

/--
Claim C7: after a tunnel with origin key `k` closes with `hadError = true`,
the session cache has no entry for `k`, and a later request for `k`
without a pre-supplied session is not augmented.
-/
theorem evictedSessionNotReused (s : AgentState) (k : String) (o : OptionsObj)
    (hk : o.agentKey = some k) (hs : o.session = none) :
    getSession (closeHandler s true (some k)).1.sessions k = none ∧
    augmentOptionsWithSession (closeHandler s true (some k)).1.sessions o = o := by
  have hget : getSession (closeHandler s true (some k)).1.sessions k = none := by
    rw [closeHandler_sessions]
    simpa using getSession_evictSession s.sessions k
  exact ⟨hget, augmentOptionsWithSession_miss _ o k hk hget⟩

/-- Concrete check of `evictedSessionNotReused`: a cached ticket for
"origin" disappears on an errored close. -/
theorem evictedSessionNotReused_check :
    getSession (closeHandler
        { maxSockets := 1, active := 1, waiting := [], sessions := [("origin", 7)],
          pendingConnect := 0, live := 0 } true (some "origin")).1.sessions "origin" = none ∧
    augmentOptionsWithSession (closeHandler
        { maxSockets := 1, active := 1, waiting := [], sessions := [("origin", 7)],
          pendingConnect := 0, live := 0 } true (some "origin")).1.sessions
      { agentKey := some "origin" } = { agentKey := some "origin" } :=
  evictedSessionNotReused
    { maxSockets := 1, active := 1, waiting := [], sessions := [("origin", 7)],
      pendingConnect := 0, live := 0 } "origin" { agentKey := some "origin" } rfl rfl

/--
Claim C8: a TLS `close` decrements `active`; when the FIFO is non-empty
exactly its oldest entry is dequeued and restarted (re-admitted, bringing
`active` back up and launching its CONNECT), and the rest of the queue is
untouched.
-/
theorem closeReleasesOneWaiter (s : AgentState) (hadError : Bool) (key : Option String)
    (hbound : s.maxSockets ≠ 0 → s.active ≤ (s.maxSockets : Int)) :
    (s.waiting = [] →
      (closeHandler s hadError key).1.active = s.active - 1 ∧
      (closeHandler s hadError key).1.waiting = [] ∧
      (closeHandler s hadError key).2 = none) ∧
    (∀ w rest, s.waiting = w :: rest →
      (closeHandler s hadError key).2 = some w ∧
      (closeHandler s hadError key).1.waiting = rest ∧
      (closeHandler s hadError key).1.active = s.active ∧
      (closeHandler s hadError key).1.pendingConnect = s.pendingConnect + 1) := by
  constructor
  · intro hw
    unfold closeHandler
    simp [hw]
  · intro w rest hw
    have hg : ¬(s.maxSockets ≠ 0 ∧ s.active - 1 = (s.maxSockets : Int)) := by
      rintro ⟨hm, he⟩
      have := hbound hm
      omega
    unfold closeHandler
    simp only [hw]
    rw [createConnection_admitted _ w (by simpa using hg)]
    refine ⟨?_, ?_, ?_, ?_⟩ <;> simp

/-- Concrete check of `closeReleasesOneWaiter`: closing with one waiter
restarts exactly that waiter. -/
theorem closeReleasesOneWaiter_check :
    (closeHandler { maxSockets := 1, active := 1, waiting := [{ extra := 5 }],
                    sessions := [], pendingConnect := 0, live := 1 } false none).2 =
      some { extra := 5 } ∧
    (closeHandler { maxSockets := 1, active := 1, waiting := [{ extra := 5 }],
                    sessions := [], pendingConnect := 0, live := 1 } false none).1.waiting = [] ∧
    (closeHandler { maxSockets := 1, active := 1, waiting := [{ extra := 5 }],
                    sessions := [], pendingConnect := 0, live := 1 } false none).1.active = 1 ∧
    (closeHandler { maxSockets := 1, active := 1, waiting := [{ extra := 5 }],
                    sessions := [], pendingConnect := 0, live := 1 } false none).1.pendingConnect =
      0 + 1 :=
  (closeReleasesOneWaiter
    { maxSockets := 1, active := 1, waiting := [{ extra := 5 }], sessions := [],
      pendingConnect := 0, live := 1 } false none (by intro hm; decide)).2
    { extra := 5 } [] rfl

/-!
## Tunnel lifecycle lemmas
-/

theorem tunnelInit_inv (key : Option String) (sess : Sessions) :
    TunnelInv (tunnelInit key sess) := by
  refine ⟨?_, ?_, ?_⟩ <;> simp [tunnelInit, errCount, closeCount]

theorem tunnelStep_inv (s : TunnelState) (e : TunnelEvent) (s' : TunnelState)
    (hstep : tunnelStep s e = some s') (h : TunnelInv s) : TunnelInv s' := by
  obtain ⟨h1, h2, h3⟩ := h
  cases e with
  | connectFailed msg =>
    simp only [tunnelStep] at hstep
    split at hstep
    case isFalse => cases hstep
    case isTrue hp =>
      cases hstep
      refine ⟨?_, ?_, ?_⟩ <;>
        simp_all [errCount, closeCount] <;> omega
  | connectSucceeded =>
    simp only [tunnelStep] at hstep
    split at hstep
    case isFalse => cases hstep
    case isTrue hp =>
      cases hstep
      rw [hp] at h1 h2
      simp only [if_true] at h1 h2
      have he : errCount s.emitted = 0 := by omega
      have hc : closeCount s.emitted = 0 := by omega
      refine ⟨?_, ?_, ?_⟩
      · simp [he]
      · simp [hc]
      · simp
  | secureEvent tk =>
    simp only [tunnelStep] at hstep
    split at hstep
    case isFalse => cases hstep
    case isTrue hp =>
      cases hstep
      exact ⟨by simpa using h1, by simpa using h2, by simpa using h3⟩
  | tlsError msg =>
    simp only [tunnelStep] at hstep
    split at hstep
    case isFalse => cases hstep
    case isTrue hp =>
      cases hstep
      rcases hcs : s.connectedStream with _ | u
      · cases hag : s.errorArmedGuard
        · cases hac : s.errorArmedConnected <;>
            refine ⟨?_, ?_, ?_⟩ <;>
            simp_all [errCount, closeCount] <;> omega
        · exact absurd (h3 hag) (by simp [hcs])
      · cases hac : s.errorArmedConnected <;> cases hag : s.errorArmedGuard <;>
          refine ⟨?_, ?_, ?_⟩ <;>
          simp_all [errCount, closeCount] <;> omega
  | tlsCloseEvent hadError =>
    simp only [tunnelStep] at hstep
    split at hstep
    case isFalse => cases hstep
    case isTrue hp =>
      cases hstep
      cases hcc : s.closeArmedConnected <;>
        refine ⟨?_, ?_, ?_⟩ <;>
        simp_all [errCount, closeCount] <;> omega

theorem runTunnel_inv (es : List TunnelEvent) (s s' : TunnelState)
    (hrun : runTunnel s es = some s') (h : TunnelInv s) : TunnelInv s' := by
  induction es generalizing s with
  | nil =>
    simp [runTunnel] at hrun
    rw [← hrun]
    exact h
  | cons e es ih =>
    simp only [runTunnel] at hrun
    rcases hstep : tunnelStep s e with _ | s1
    · rw [hstep] at hrun
      simp at hrun
    · rw [hstep] at hrun
      simp only at hrun
      exact ih s1 hrun (tunnelStep_inv s e s1 hstep h)

theorem tunnelStep_connected_iff (s : TunnelState) (e : TunnelEvent) (s' : TunnelState)
    (hstep : tunnelStep s e = some s')
    (h : s.methodsConnected = s.connectedStream.isSome) :
    s'.methodsConnected = s'.connectedStream.isSome := by
  cases e <;> simp only [tunnelStep] at hstep <;> split at hstep <;>
    cases hstep <;> simpa using h

theorem runTunnel_connected_iff (es : List TunnelEvent) (s s' : TunnelState)
    (hrun : runTunnel s es = some s')
    (h : s.methodsConnected = s.connectedStream.isSome) :
    s'.methodsConnected = s'.connectedStream.isSome := by
  induction es generalizing s with
  | nil =>
    simp [runTunnel] at hrun
    rw [← hrun]
    exact h
  | cons e es ih =>
    simp only [runTunnel] at hrun
    rcases hstep : tunnelStep s e with _ | s1
    · rw [hstep] at hrun
      simp at hrun
    · rw [hstep] at hrun
      simp only at hrun
      exact ih s1 hrun (tunnelStep_connected_iff s e s1 hstep h)

/-!
## Claim theorems: tunnel lifecycle
-/

/--
Claim C3 (counterexample): immediately after a successful CONNECT the
surrogate is already Connected (methods swapped, TLS handle attached),
while the `secure` callback is still armed — the handshake-completion
event has not fired — and nothing is cached for the origin: the
Pending-to-Connected transition does not occur on the TLS `secure` event.
-/
theorem connectedBeforeSecure :
    (runTunnel (tunnelInit (some "origin") []) [TunnelEvent.connectSucceeded]).map
        (fun st => (st.methodsConnected, st.connectedStream.isSome, st.secureArmed,
                    getSession st.sessions "origin")) =
      some (true, true, true, none) := by decide

/--
Claim C3 (amended): a SurrogateStream is Connected iff its TLS handle is
non-null; the transition to Connected happens synchronously when the TLS
connection is initiated on CONNECT success (caching nothing), and the new
session ticket is cached on the TLS `secure` event when the origin key is
set (leaving the connection state untouched).
-/
theorem connectedStateCharacterization (key : Option String) (sess : Sessions)
    (es : List TunnelEvent) (st : TunnelState)
    (hrun : runTunnel (tunnelInit key sess) es = some st) :
    (st.methodsConnected = st.connectedStream.isSome) ∧
    (∀ s s' : TunnelState, s.connectPending = true →
      tunnelStep s TunnelEvent.connectSucceeded = some s' →
      s'.methodsConnected = true ∧ s'.connectedStream = some () ∧
      s'.secureArmed = true ∧ s'.sessions = s.sessions) ∧
    (∀ (s s' : TunnelState) (tk : Ticket) (k : String), s.agentKey = some k →
      tunnelStep s (TunnelEvent.secureEvent tk) = some s' →
      getSession s'.sessions k = some tk ∧
      s'.methodsConnected = s.methodsConnected ∧
      s'.connectedStream = s.connectedStream) := by
  refine ⟨?_, ?_, ?_⟩
  · exact runTunnel_connected_iff es (tunnelInit key sess) st hrun (by simp [tunnelInit])
  · intro s s' hp hstep
    simp only [tunnelStep, hp, if_true] at hstep
    cases hstep
    exact ⟨rfl, rfl, rfl, rfl⟩
  · intro s s' tk k hk hstep
    simp only [tunnelStep] at hstep
    split at hstep
    case isFalse => cases hstep
    case isTrue hg =>
      cases hstep
      refine ⟨?_, rfl, rfl⟩
      simp only [hk]
      exact getSession_cacheSession s.sessions k tk

/-- Concrete check of `connectedStateCharacterization` on the freshly
created (still pending) surrogate. -/
theorem connectedStateCharacterization_check :
    (tunnelInit (some "origin") []).methodsConnected =
      (tunnelInit (some "origin") []).connectedStream.isSome :=
  (connectedStateCharacterization (some "origin") [] [] (tunnelInit (some "origin") []) rfl).1

/--
Claim C5 (counterexample): a connected tunnel whose TLS stream emits
`error` and then `close` re-emits BOTH downstream — two terminal events
for the same failing request, refuting "at most one terminal event".
-/
theorem errorThenCloseBothEmitted :
    (runTunnel (tunnelInit none [])
        [TunnelEvent.connectSucceeded, TunnelEvent.tlsError "handshake failure",
         TunnelEvent.tlsCloseEvent true]).map
        (fun st => (st.emitted, errCount st.emitted + closeCount st.emitted)) =
      some ([Emission.errorE "handshake failure", Emission.closeE], 2) := by decide

/--
Claim C5 (amended): over every event sequence, a tunnel request's
surrogate emits at most one `error` and at most one `close` (never two of
either), though a failing connected tunnel emits one of each.
-/
theorem terminalEventCounts (key : Option String) (sess : Sessions)
    (es : List TunnelEvent) (st : TunnelState)
    (hrun : runTunnel (tunnelInit key sess) es = some st) :
    errCount st.emitted ≤ 1 ∧ closeCount st.emitted ≤ 1 := by
  obtain ⟨h1, h2, h3⟩ := runTunnel_inv es (tunnelInit key sess) st hrun
    (tunnelInit_inv key sess)
  constructor
  · exact le_trans (le_trans (Nat.le_add_right _ _) (Nat.le_add_right _ _)) h1
  · exact le_trans (le_trans (Nat.le_add_right _ _) (Nat.le_add_right _ _)) h2

/-- Concrete check of `terminalEventCounts` just after the transition to
Connected. -/
theorem terminalEventCounts_check :
    errCount ({ agentKey := none, connectPending := false, tlsStarted := true,
                closedFlag := false, connectedStream := some (),
                methodsConnected := true, writable := true, secureArmed := true,
                errorArmedConnected := true, errorArmedGuard := true,
                closeArmedConnected := true, closeArmedAgent := true,
                sessions := [], emitted := [] } : TunnelState).emitted ≤ 1 ∧
    closeCount ({ agentKey := none, connectPending := false, tlsStarted := true,
                  closedFlag := false, connectedStream := some (),
                  methodsConnected := true, writable := true, secureArmed := true,
                  errorArmedConnected := true, errorArmedGuard := true,
                  closeArmedConnected := true, closeArmedAgent := true,
                  sessions := [], emitted := [] } : TunnelState).emitted ≤ 1 :=
  terminalEventCounts none [] [TunnelEvent.connectSucceeded]
    { agentKey := none, connectPending := false, tlsStarted := true,
      closedFlag := false, connectedStream := some (),
      methodsConnected := true, writable := true, secureArmed := true,
      errorArmedConnected := true, errorArmedGuard := true,
      closeArmedConnected := true, closeArmedAgent := true,
      sessions := [], emitted := [] } (by decide)

/-!
## Buffered-configuration lemmas
-/

theorem applyPendingCall_timeout (s : PendingStream) (c : PendingCall) :
    (applyPendingCall s c).config.surrogateTimeout =
      match timeoutOfCall c with
      | some t => some t
      | none => s.config.surrogateTimeout := by
  cases c with
  | setTimeoutCall t cb => rfl
  | setKeepAliveCall e d =>
    cases e <;> cases d <;>
      simp only [applyPendingCall, surrogateSetKeepAlive, timeoutOfCall] <;>
      first
      | rfl
      | (split <;> rfl)
  | refCall => rfl
  | unrefCall => rfl

theorem applyPendingCall_enable (s : PendingStream) (c : PendingCall) :
    (applyPendingCall s c).config.surrogateKeepAliveEnable =
      match enableOfCall c with
      | some b => some b
      | none => s.config.surrogateKeepAliveEnable := by
  cases c with
  | setTimeoutCall t cb => rfl
  | setKeepAliveCall e d =>
    cases e <;> cases d <;>
      simp only [applyPendingCall, surrogateSetKeepAlive, enableOfCall] <;>
      first
      | rfl
      | (split <;> rfl)
  | refCall => rfl
  | unrefCall => rfl

theorem applyPendingCall_delay (s : PendingStream) (c : PendingCall) :
    (applyPendingCall s c).config.surrogateKeepAliveDelay =
      match delayOfCall c with
      | some d => some d
      | none => s.config.surrogateKeepAliveDelay := by
  cases c with
  | setTimeoutCall t cb => rfl
  | setKeepAliveCall e d =>
    cases e with
    | kbool b =>
      cases d with
      | none => rfl
      | some dd =>
        by_cases hd : dd ≠ 0 <;>
          simp [applyPendingCall, surrogateSetKeepAlive, delayOfCall, hd]
    | knum n =>
      by_cases hn : n ≠ 0 <;>
        cases d <;>
        simp [applyPendingCall, surrogateSetKeepAlive, delayOfCall, hn]
    | kundef => cases d <;> rfl
  | refCall => rfl
  | unrefCall => rfl

theorem applyPendingCall_reffed (s : PendingStream) (c : PendingCall) :
    (applyPendingCall s c).config.surrogateReffed =
      match refOfCall c with
      | some b => b
      | none => s.config.surrogateReffed := by
  cases c with
  | setTimeoutCall t cb => rfl
  | setKeepAliveCall e d =>
    cases e <;> cases d <;>
      simp only [applyPendingCall, surrogateSetKeepAlive, refOfCall] <;>
      first
      | rfl
      | (split <;> rfl)
  | refCall => rfl
  | unrefCall => rfl

theorem applyPendingCalls_timeout (cs : List PendingCall) (s : PendingStream) :
    (applyPendingCalls s cs).config.surrogateTimeout =
      match lastSet timeoutOfCall cs with
      | some t => some t
      | none => s.config.surrogateTimeout := by
  induction cs generalizing s with
  | nil => rfl
  | cons c cs ih =>
    show (applyPendingCalls (applyPendingCall s c) cs).config.surrogateTimeout = _
    rw [ih]
    rcases hl : lastSet timeoutOfCall cs with _ | t
    · simp only [lastSet, hl]
      exact applyPendingCall_timeout s c
    · simp only [lastSet, hl]

theorem applyPendingCalls_enable (cs : List PendingCall) (s : PendingStream) :
    (applyPendingCalls s cs).config.surrogateKeepAliveEnable =
      match lastSet enableOfCall cs with
      | some b => some b
      | none => s.config.surrogateKeepAliveEnable := by
  induction cs generalizing s with
  | nil => rfl
  | cons c cs ih =>
    show (applyPendingCalls (applyPendingCall s c) cs).config.surrogateKeepAliveEnable = _
    rw [ih]
    rcases hl : lastSet enableOfCall cs with _ | b
    · simp only [lastSet, hl]
      exact applyPendingCall_enable s c
    · simp only [lastSet, hl]

theorem applyPendingCalls_delay (cs : List PendingCall) (s : PendingStream) :
    (applyPendingCalls s cs).config.surrogateKeepAliveDelay =
      match lastSet delayOfCall cs with
      | some d => some d
      | none => s.config.surrogateKeepAliveDelay := by
  induction cs generalizing s with
  | nil => rfl
  | cons c cs ih =>
    show (applyPendingCalls (applyPendingCall s c) cs).config.surrogateKeepAliveDelay = _
    rw [ih]
    rcases hl : lastSet delayOfCall cs with _ | d
    · simp only [lastSet, hl]
      exact applyPendingCall_delay s c
    · simp only [lastSet, hl]

theorem applyPendingCalls_reffed (cs : List PendingCall) (s : PendingStream) :
    (applyPendingCalls s cs).config.surrogateReffed =
      match lastSet refOfCall cs with
      | some b => b
      | none => s.config.surrogateReffed := by
  induction cs generalizing s with
  | nil => rfl
  | cons c cs ih =>
    show (applyPendingCalls (applyPendingCall s c) cs).config.surrogateReffed = _
    rw [ih]
    rcases hl : lastSet refOfCall cs with _ | b
    · simp only [lastSet, hl]
      exact applyPendingCall_reffed s c
    · simp only [lastSet, hl]

theorem connectedApplyCalls_aux (cs : List PendingCall) (acc : List TlsCall) :
    cs.foldl (fun a c => a ++ connectedForward c) acc =
      acc ++ (cs.map connectedForward).join := by
  induction cs generalizing acc with
  | nil => simp
  | cons c cs ih => simp [ih]

/-!
## Claim theorems: buffered configuration, CONNECT response, listeners
-/

/--
Claim C4 (counterexample): for the pending call sequence
`setKeepAlive(100)` then `setKeepAlive(true)`, the transition applies the
keep-alive enable flag *before* the delay — the reverse of the order the
calls were made — so the buffered configuration is not applied in call
order.
-/
theorem bufferedFlushOrderDiffers :
    flushBuffered (applyPendingCalls {}
        [PendingCall.setKeepAliveCall (KAArg.knum 100) none,
         PendingCall.setKeepAliveCall (KAArg.kbool true) none]).config =
      [TlsCall.tlsSetKeepAliveEnable true, TlsCall.tlsSetKeepAliveDelay 100] ∧
    flushBufferedSpecCallOrder
        [PendingCall.setKeepAliveCall (KAArg.knum 100) none,
         PendingCall.setKeepAliveCall (KAArg.kbool true) none] =
      [TlsCall.tlsSetKeepAliveDelay 100, TlsCall.tlsSetKeepAliveEnable true] ∧
    flushBuffered (applyPendingCalls {}
        [PendingCall.setKeepAliveCall (KAArg.knum 100) none,
         PendingCall.setKeepAliveCall (KAArg.kbool true) none]).config ≠
      flushBufferedSpecCallOrder
        [PendingCall.setKeepAliveCall (KAArg.knum 100) none,
         PendingCall.setKeepAliveCall (KAArg.kbool true) none] :=
  ⟨by decide, by decide, by decide⟩

/--
Claim C4 (amended): at the Pending-to-Connected transition the buffered
configuration is applied with the *latest recorded value* of each slot, in
the source's fixed order — timeout, keep-alive enable, keep-alive delay,
unref — regardless of the order the calls were made; calls made after the
transition forward to the TLS stream immediately, in call order.
-/
theorem bufferedFlushLastValues (cs : List PendingCall) :
    flushBuffered (applyPendingCalls {} cs).config =
      (match lastSet timeoutOfCall cs with
       | some t => [TlsCall.tlsSetTimeout t]
       | none => []) ++
      (match lastSet enableOfCall cs with
       | some b => [TlsCall.tlsSetKeepAliveEnable b]
       | none => []) ++
      (match lastSet delayOfCall cs with
       | some d => [TlsCall.tlsSetKeepAliveDelay d]
       | none => []) ++
      (if (lastSet refOfCall cs).getD true then [] else [TlsCall.tlsUnref]) ∧
    connectedApplyCalls cs = (cs.map connectedForward).join := by
  constructor
  · unfold flushBuffered
    rw [applyPendingCalls_timeout, applyPendingCalls_enable,
        applyPendingCalls_delay, applyPendingCalls_reffed]
    rcases lastSet timeoutOfCall cs with _ | t <;>
      rcases lastSet enableOfCall cs with _ | b <;>
      rcases lastSet delayOfCall cs with _ | d <;>
      rcases lastSet refOfCall cs with _ | rb <;>
      simp [PendingStream.config]
  · unfold connectedApplyCalls
    rw [connectedApplyCalls_aux]
    simp

/--
Claim C6: a CONNECT response with any status other than 200 yields an
error whose message is the proxy's reason phrase and whose code is the
status, destroying the socket; a 200 yields the raw socket.
-/
theorem connectResponseHandling (res : ConnectResponse) :
    (res.statusCode ≠ 200 →
      onConnectResponse res =
        (ConnectResult.errResult res.statusMessage res.statusCode, true)) ∧
    (res.statusCode = 200 →
      onConnectResponse res = (ConnectResult.okSocket, false)) := by
  constructor
  · intro hne
    unfold onConnectResponse
    rw [if_neg hne]
  · intro he
    unfold onConnectResponse
    rw [if_pos he]

/-- Concrete check of `connectResponseHandling`: a 500 refusal and a 200
acceptance. -/
theorem connectResponseHandling_check :
    onConnectResponse { statusCode := 500, statusMessage := "Connection Error" } =
      (ConnectResult.errResult "Connection Error" 500, true) ∧
    onConnectResponse { statusCode := 200, statusMessage := "Connection Established" } =
      (ConnectResult.okSocket, false) :=
  ⟨(connectResponseHandling
      { statusCode := 500, statusMessage := "Connection Error" }).1 (by decide),
   (connectResponseHandling
      { statusCode := 200, statusMessage := "Connection Established" }).2 rfl⟩

theorem countCb_pos_of_any (ls : List ListenerEntry) (c : CB)
    (h : ls.any (fun x => x.cb = c) = true) : 1 ≤ countCb ls c := by
  unfold countCb
  rcases List.any_eq_true.mp h with ⟨x, hx, hpx⟩
  exact List.countP_pos.mpr ⟨x, hx, hpx⟩

theorem countCb_zero_of_not_any (ls : List ListenerEntry) (c : CB)
    (h : ls.any (fun x => x.cb = c) = false) : countCb ls c = 0 := by
  unfold countCb
  rw [List.countP_eq_zero]
  intro x hx
  have := List.any_eq_false.mp h x hx
  simpa using this

theorem countCb_cons (e : ListenerEntry) (es : List ListenerEntry) (c : CB) :
    countCb (e :: es) c = countCb es c + (if e.cb = c then 1 else 0) := by
  simp [countCb, List.countP_cons]

theorem countCb_removeTimeoutListener_self (ls : List ListenerEntry) (c : CB) :
    countCb (removeTimeoutListener ls c) c = countCb ls c - 1 := by
  induction ls with
  | nil => rfl
  | cons e es ih =>
    rcases ha : es.any (fun x => x.cb = c) with _ | _
    · have h0 := countCb_zero_of_not_any es c ha
      by_cases he : e.cb = c
      · rw [show removeTimeoutListener (e :: es) c = es by
            simp [removeTimeoutListener, ha, he]]
        rw [countCb_cons, if_pos he, h0]
      · rw [show removeTimeoutListener (e :: es) c = e :: es by
            simp [removeTimeoutListener, ha, he]]
        rw [countCb_cons, if_neg he, h0]
    · have hpos := countCb_pos_of_any es c ha
      rw [show removeTimeoutListener (e :: es) c = e :: removeTimeoutListener es c by
          simp [removeTimeoutListener, ha]]
      rw [countCb_cons, countCb_cons, ih]
      omega

theorem countCb_removeTimeoutListener_other (ls : List ListenerEntry) (c x : CB)
    (hx : x ≠ c) : countCb (removeTimeoutListener ls c) x = countCb ls x := by
  induction ls with
  | nil => rfl
  | cons e es ih =>
    rcases ha : es.any (fun q => q.cb = c) with _ | _
    · by_cases he : e.cb = c
      · rw [show removeTimeoutListener (e :: es) c = es by
            simp [removeTimeoutListener, ha, he]]
        have hex : ¬(e.cb = x) := by
          rw [he]
          exact fun hcx => hx hcx.symm
        rw [countCb_cons, if_neg hex]
        omega
      · rw [show removeTimeoutListener (e :: es) c = e :: es by
            simp [removeTimeoutListener, ha, he]]
    · rw [show removeTimeoutListener (e :: es) c = e :: removeTimeoutListener es c by
          simp [removeTimeoutListener, ha]]
      rw [countCb_cons, countCb_cons, ih]

/--
Claim C9: the shared timeout-listener helper registers the callback as a
one-shot listener when the timeout is positive (it fires once on
`timeout` and does not survive the emission); with timeout 0 and a
callback exactly one occurrence of that callback is removed and no other
listener is touched; with timeout 0 and no callback every `timeout`
listener is removed — so listeners cannot accumulate across requests.
-/
theorem timeoutListenerHygiene (ls : List ListenerEntry) (t : Nat) (c : CB) :
    (t ≠ 0 →
      setTimeoutListener ls t (some c) = ls ++ [⟨c, true⟩] ∧
      (emitTimeout (setTimeoutListener ls t (some c))).2 = (emitTimeout ls).2 ∧
      (emitTimeout (setTimeoutListener ls t (some c))).1 = (emitTimeout ls).1 ++ [c]) ∧
    (countCb (setTimeoutListener ls 0 (some c)) c = countCb ls c - 1 ∧
     ∀ x, x ≠ c → countCb (setTimeoutListener ls 0 (some c)) x = countCb ls x) ∧
    setTimeoutListener ls 0 none = [] := by
  refine ⟨?_, ⟨?_, ?_⟩, ?_⟩
  · intro ht
    unfold setTimeoutListener onceTimeout
    rw [if_pos ht]
    refine ⟨rfl, ?_, ?_⟩ <;> simp [emitTimeout]
  · unfold setTimeoutListener
    rw [if_neg (by simp)]
    exact countCb_removeTimeoutListener_self ls c
  · intro x hx
    unfold setTimeoutListener
    rw [if_neg (by simp)]
    exact countCb_removeTimeoutListener_other ls c x hx
  · rfl

/-- Concrete check of `timeoutListenerHygiene`: registering on a stream
that already has one persistent listener. -/
theorem timeoutListenerHygiene_check :
    setTimeoutListener [⟨7, false⟩] 30 (some 9) = [⟨7, false⟩] ++ [⟨9, true⟩] ∧
    (emitTimeout (setTimeoutListener [⟨7, false⟩] 30 (some 9))).2 =
      (emitTimeout [⟨7, false⟩]).2 ∧
    (emitTimeout (setTimeoutListener [⟨7, false⟩] 30 (some 9))).1 =
      (emitTimeout [⟨7, false⟩]).1 ++ [9] :=
  (timeoutListenerHygiene [⟨7, false⟩] 30 9).1 (by decide)

/-!
## Heap lemmas and the frame property of createConnection
-/

theorem find_map_write (l : List (Ref × OptionsObj)) (r t : Ref) (o : OptionsObj)
    (hne : r ≠ t) :
    (l.map (fun p => if p.1 = t then (t, o) else p)).find? (fun p => p.1 = r) =
      l.find? (fun p => p.1 = r) := by
  induction l with
  | nil => rfl
  | cons p l ih =>
    by_cases hp : p.1 = t
    · have ht : ¬t = r := fun x => hne x.symm
      have hpr : ¬p.1 = r := by
        rw [hp]
        exact ht
      simp [hp, ht, hpr, ih]
    · by_cases hr : p.1 = r
      · have hd : decide (p.1 = r) = true := by simp [hr]
        simp only [List.map_cons, if_neg hp, List.find?_cons, hd]
      · have hd : decide (p.1 = r) = false := by simp [hr]
        simp only [List.map_cons, if_neg hp, List.find?_cons, hd]
        exact ih

theorem Heap.read_write_ne (h : Heap) (r t : Ref) (o : OptionsObj) (hne : r ≠ t) :
    (h.write t o).read r = h.read r := by
  unfold Heap.read Heap.write
  rw [find_map_write h.objs r t o hne]

theorem Heap.read_alloc_lt (h : Heap) (o : OptionsObj) (r : Ref) (hr : r < h.next) :
    (h.alloc o).1.read r = h.read r := by
  unfold Heap.alloc Heap.read
  have hne : ¬h.next = r := fun he => Nat.lt_irrefl r (he ▸ hr)
  simp [List.find?_cons, hne]

theorem augmentHeapOptions_read_ne (m : Sessions) (h : Heap) (t r : Ref)
    (hne : r ≠ t) : (augmentHeapOptions m h t).read r = h.read r := by
  unfold augmentHeapOptions
  rcases hE : h.read t with _ | o <;> simp only [hE]
  exact Heap.read_write_ne h r t _ hne

theorem admittedMutations_read_ne (m : Sessions) (sock : Nat) (h : Heap)
    (r r' : Ref) (hne : r' ≠ r) :
    (admittedMutations m sock h r).read r' = h.read r' := by
  simp only [admittedMutations]
  rcases hE : (augmentHeapOptions m h r).read r with _ | o <;> simp only [hE]
  · exact augmentHeapOptions_read_ne m h r r' hne
  · rw [Heap.read_write_ne _ r' r _ hne]
    exact augmentHeapOptions_read_ne m h r r' hne

/--
Claim C10: `createConnection` never mutates the caller's options object.
The local `options` variable is rebound to a fresh shallow copy before any
mutation, so session augmentation, socket attachment and FIFO queueing all
happen on the copy: the object the caller's reference points at is
unchanged on both the queued and the admitted path, and neither the FIFO
nor the CONNECT leg ever receives the caller's reference.
-/
theorem callerOptionsUnchanged (m : Sessions) (maxSockets : Nat) (active : Int)
    (waitingRefs : List Ref) (h : Heap) (callerRef : Ref) (sock : Nat)
    (hc : callerRef < h.next) :
    (createConnectionHeap m maxSockets active waitingRefs h callerRef sock).1.read
        callerRef = h.read callerRef ∧
    (createConnectionHeap m maxSockets active waitingRefs h callerRef sock).2.2 ≠
      some callerRef ∧
    (∀ r ∈ (createConnectionHeap m maxSockets active waitingRefs h callerRef sock).2.1,
      r ∈ waitingRefs ∨ r ≠ callerRef) := by
  have hne : callerRef ≠ h.next := Nat.ne_of_lt hc
  have halloc : ((h.alloc ((h.read callerRef).getD {})).1).read callerRef =
      h.read callerRef :=
    Heap.read_alloc_lt h _ callerRef hc
  have hopt : (h.alloc ((h.read callerRef).getD {})).2 = h.next := rfl
  by_cases hg : maxSockets ≠ 0 ∧ active = (maxSockets : Int)
  · simp only [createConnectionHeap, if_pos hg]
    refine ⟨halloc, by simp, ?_⟩
    intro r hr
    rcases List.mem_append.mp hr with hl | hl
    · exact Or.inl hl
    · right
      simp only [List.mem_singleton] at hl
      rw [hl, hopt]
      exact ne_of_gt hc
  · simp only [createConnectionHeap, if_neg hg]
    refine ⟨?_, ?_, fun r hr => Or.inl hr⟩
    · rw [admittedMutations_read_ne m sock _ _ callerRef (by rw [hopt]; exact hne)]
      exact halloc
    · show some (h.alloc ((h.read callerRef).getD {})).2 ≠ some callerRef
      rw [hopt]
      intro hcontra
      exact absurd (Option.some.inj hcontra) (ne_of_gt hc)

/-- Concrete check of `callerOptionsUnchanged`: a one-object heap whose
only object is the caller's. -/
theorem callerOptionsUnchanged_check :
    (createConnectionHeap [] 0 0 [] { objs := [(0, { host := some "example" })], next := 1 }
        0 5).1.read 0 =
      Heap.read { objs := [(0, { host := some "example" })], next := 1 } 0 ∧
    (createConnectionHeap [] 0 0 [] { objs := [(0, { host := some "example" })], next := 1 }
        0 5).2.2 ≠ some 0 :=
  ⟨(callerOptionsUnchanged [] 0 0 [] { objs := [(0, { host := some "example" })], next := 1 }
      0 5 (by decide)).1,
   (callerOptionsUnchanged [] 0 0 [] { objs := [(0, { host := some "example" })], next := 1 }
      0 5 (by decide)).2.1⟩

end BetterHttpsProxy
